import Mathlib

/-!
Verification of the Diamond Store admin dashboard (a Next.js client app).

The development shallowly embeds the client-side logic that the spec's
testable properties talk about:

* the search-term classifier of the two `TransactionsPage` variants in
  `src/unnamed/part_001` (lines 2000-2029 without an email branch, and
  lines 2432-2465 with one), including JavaScript `parseInt`, `trim`
  and `includes` semantics;
* the `handleAddPoints` client-side guard (part_001 lines 281-309 and
  part_002 lines 230-244);
* the incremental-reward display computation of the transaction table
  render (part_001 lines 2258-2308 and the identical copy at 2694-2745),
  including the `/Reward:\s*([\d.]+)/` regex search and `parseFloat`;
* `handleOrderStatus` (part_001 lines 311-335);
* the login role gate (`src/app/login/page.tsx` lines 25-46);
* `getOrderStatus` and the dashboard order filters (part_001 lines
  118-119, 224-228, 359-387).

Numbers are modelled exactly: integers as `Int`, decimal amounts as `ℚ`;
`NaN` outcomes are modelled with `Option`.
-/

namespace DiamondStore

/-! ## JavaScript string primitives -/

/-- The whitespace characters recognised by JavaScript `trim`, `parseInt`
and `\s` (ASCII portion; the statuses, queries and descriptions handled
by this app are ASCII). -/
def isJsSpace (c : Char) : Bool :=
  c = ' ' || c = '\t' || c = '\n' || c = '\r' || c = '\x0b' || c = '\x0c'

/-- `String.prototype.trim`: drop leading and trailing whitespace. -/
def trimChars (cs : List Char) : List Char :=
  ((cs.dropWhile isJsSpace).reverse.dropWhile isJsSpace).reverse

/-- `String.prototype.trim` on `String`. -/
def jsTrim (s : String) : String := ⟨trimChars s.data⟩

/-- Value of a (non-empty) string of decimal digits. -/
def digitsToNat (cs : List Char) : Nat :=
  cs.foldl (fun acc c => acc * 10 + (c.toNat - 48)) 0

/-- Longest prefix of decimal digits, as a number; `none` when there is
no leading digit. -/
def parseDigits (cs : List Char) : Option Nat :=
  let ds := cs.takeWhile Char.isDigit
  if ds.isEmpty then none else some (digitsToNat ds)

/-- A hexadecimal digit (`0-9`, `a-f`, `A-F`). -/
def isHexChar (c : Char) : Bool :=
  c.isDigit || ('a' ≤ c && c ≤ 'f') || ('A' ≤ c && c ≤ 'F')

/-- Value of a single hexadecimal digit. -/
def hexVal (c : Char) : Nat :=
  if c.isDigit then c.toNat - 48
  else if 'a' ≤ c ∧ c ≤ 'f' then c.toNat - 87
  else c.toNat - 55

/-- Value of a (non-empty) string of hexadecimal digits. -/
def hexToNat (cs : List Char) : Nat :=
  cs.foldl (fun acc c => acc * 16 + hexVal c) 0

/-- Longest prefix of hexadecimal digits, as a number; `none` when there
is no leading hex digit. -/
def parseHexDigits (cs : List Char) : Option Nat :=
  let ds := cs.takeWhile isHexChar
  if ds.isEmpty then none else some (hexToNat ds)

/-- `parseInt` without radix, after whitespace and sign: a `0x`/`0X`
prefix switches to hexadecimal (the no-radix call the source uses),
otherwise the longest decimal digit prefix is read. -/
def jsParseIntNoSign (cs : List Char) : Option Nat :=
  match cs with
  | c0 :: c1 :: rest =>
      if c0 = '0' ∧ (c1 = 'x' ∨ c1 = 'X') then parseHexDigits rest
      else parseDigits (c0 :: c1 :: rest)
  | _ => parseDigits cs

/-- `jsParseInt` after the leading whitespace has been dropped: an
optional sign followed by the digit parse (hex for `0x`-prefixed
input). -/
def jsParseIntCore : List Char → Option Int
  | [] => none
  | c :: rest =>
      if c = '-' then (jsParseIntNoSign rest).map (fun n => -(n : Int))
      else if c = '+' then (jsParseIntNoSign rest).map (fun n => (n : Int))
      else (jsParseIntNoSign (c :: rest)).map (fun n => (n : Int))

/-- JavaScript `parseInt(s)` called with no radix argument, as the
source does: skip leading whitespace, read an optional sign, then — if
the rest starts with `0x` or `0X` — the longest prefix of hexadecimal
digits, otherwise the longest prefix of decimal digits; `none` models
`NaN` (no digits found). Trailing garbage is ignored, exactly as in
JavaScript (`parseInt("0x5") = 5`, `parseInt("5x") = 5`,
`parseInt("0x") = NaN`). -/
def jsParseInt (s : String) : Option Int :=
  jsParseIntCore (s.data.dropWhile isJsSpace)

/-- `String.prototype.includes` for a single character (`query.includes('@')`). -/
def containsChar (s : String) (c : Char) : Bool := s.data.contains c

/-- Substring test on character lists (JavaScript `includes`). -/
def containsSub (sub : List Char) : List Char → Bool
  | [] => sub.isEmpty
  | c :: rest => sub.isPrefixOf (c :: rest) || containsSub sub rest

/-- JavaScript `hay.includes(sub)`. -/
def strIncludes (hay sub : String) : Bool := containsSub sub.data hay.data

/-- ASCII `String.prototype.toUpperCase`. -/
def toUpperStr (s : String) : String := ⟨s.data.map Char.toUpper⟩

/-- ASCII `String.prototype.toLowerCase`. -/
def toLowerStr (s : String) : String := ⟨s.data.map Char.toLower⟩

/-! ## The transactions search-term classifier -/

/-- The single query filter that `fetchTransactions` attaches to
`GET /users/transactions/all` (besides `limit`): at most one of
`email`, `userId`, `idNumber` is set, or none for a blank search box. -/
inductive SearchFilter where
  | noFilter : SearchFilter
  | email : String → SearchFilter
  | userId : Int → SearchFilter
  | idNumber : String → SearchFilter
deriving DecidableEq, Repr

/-- The `userId` branch test shared by both classifier variants:
`!isNaN(numValue) && query.length <= 3 && numValue > 0 && numValue < 10000`. -/
def userIdTest (query : String) : Option Int :=
  match jsParseInt query with
  | some n => if query.length ≤ 3 ∧ 0 < n ∧ n < 10000 then some n else none
  | none => none

/-- Search classifier of the second `TransactionsPage.fetchTransactions`
(src/unnamed/part_001 lines 2432-2465): trim the query; if blank send no
filter; if it contains `@` send `email`; else if `parseInt` yields a
value in (0,10000) and the string has at most 3 characters send
`userId`; otherwise send `idNumber`. -/
def classifySearch (searchQuery : String) : SearchFilter :=
  let query := jsTrim searchQuery
  if query = "" then SearchFilter.noFilter
  else if containsChar query '@' then SearchFilter.email query
  else
    match userIdTest query with
    | some n => SearchFilter.userId n
    | none => SearchFilter.idNumber query

/-- Search classifier of the first `TransactionsPage.fetchTransactions`
(src/unnamed/part_001 lines 2000-2029): identical to `classifySearch`
except that it has no email branch at all. -/
def classifySearchNoEmail (searchQuery : String) : SearchFilter :=
  let query := jsTrim searchQuery
  if query = "" then SearchFilter.noFilter
  else
    match userIdTest query with
    | some n => SearchFilter.userId n
    | none => SearchFilter.idNumber query

/-- Spec-side notion of a numeric string: an optional sign followed by
digits with an optional fractional part (what JavaScript `Number`
accepts, ignoring exponents); this is the plain-language reading of
"numeric" used by the spec's testable properties. -/
def isNumericString (s : String) : Bool :=
  let cs : List Char :=
    match s.data with
    | '-' :: r => r
    | '+' :: r => r
    | r => r
  let ip := cs.takeWhile Char.isDigit
  match cs.drop ip.length with
  | [] => !ip.isEmpty
  | '.' :: r2 => !r2.isEmpty && r2.all Char.isDigit
  | _ => false

/-! ## The add-points client-side guard -/

/-- The client-side guard of `handleAddPoints` (src/unnamed/part_001
lines 281-309; the guard in src/unnamed/part_002 lines 230-244 is the
same condition on the prompted string):
`if (!pointsAmount || isNaN(amount) || amount <= 0) { showToast(error); return; }`.
`some n` is the `amount` posted to `POST /users/{id}/points`; `none`
means the input was rejected client-side with the
"Please enter a valid amount" toast and no network call was issued. -/
def addPointsRequest (pointsAmount : String) : Option Int :=
  if pointsAmount = "" then none
  else
    match jsParseInt pointsAmount with
    | none => none
    | some n => if n ≤ 0 then none else some n

/-! ## The incremental-reward display computation -/

/-- A transaction record as consumed by the transactions table (the
fields the `displayAmount` computation reads, plus `created_at` for the
recency order). `description` is nullable; `amount` is a number. -/
structure Transaction where
  id : Nat
  user_id : Nat
  amount : ℚ
  transaction_type : String
  description : Option String
  created_at : Nat
deriving DecidableEq, Repr

/-- The character class `[\d.]` of the reward regex. -/
def isDigitOrDot (c : Char) : Bool := c.isDigit || c = '.'

/-- Try to match `/Reward:\s*([\d.]+)/` at the start of `cs`; returns the
captured `[\d.]+` token. -/
def rewardMatchHere : List Char → Option (List Char)
  | 'R' :: 'e' :: 'w' :: 'a' :: 'r' :: 'd' :: ':' :: rest =>
      let tok := (rest.dropWhile isJsSpace).takeWhile isDigitOrDot
      if tok.isEmpty then none else some tok
  | _ => none

/-- `description.match(/Reward:\s*([\d.]+)/)`: the JavaScript regex
engine returns the capture of the first position at which the whole
pattern matches, scanning left to right. -/
def rewardTokenAux : List Char → Option (List Char)
  | [] => none
  | c :: rest =>
      match rewardMatchHere (c :: rest) with
      | some tok => some tok
      | none => rewardTokenAux rest

/-- JavaScript `parseFloat` restricted to `[\d.]+` tokens (all the
capture can contain): the longest prefix of the form `digits [. digits]`
containing at least one digit; `none` models `NaN` (e.g. for `"."`). -/
def parseFloatDigitsDot (tok : List Char) : Option ℚ :=
  let ip := tok.takeWhile Char.isDigit
  match tok.drop ip.length with
  | '.' :: rest2 =>
      let fp := rest2.takeWhile Char.isDigit
      if ip.isEmpty && fp.isEmpty then none
      else some ((digitsToNat ip : ℚ) + (digitsToNat fp : ℚ) / ((10 : ℚ) ^ fp.length))
  | _ => if ip.isEmpty then none else some ((digitsToNat ip : ℚ))

/-- The render's test
`transaction.transaction_type === 'ADDED' && transaction.description &&
transaction.description.includes('Weekly Sale Reward')` (a `null` or
empty description is falsy). -/
def isRewardCandidate (t : Transaction) : Bool :=
  (t.transaction_type == "ADDED") &&
    (match t.description with
     | none => false
     | some d => (decide (d ≠ "")) && strIncludes d "Weekly Sale Reward")

/-- The regex capture of a transaction's description, if any. -/
def tokenOf (t : Transaction) : Option (List Char) :=
  match t.description with
  | none => none
  | some d => rewardTokenAux d.data

/-- The cumulative reward figure a transaction's description carries:
regex capture fed to `parseFloat`. -/
def figureOf (t : Transaction) : Option ℚ := (tokenOf t).bind parseFloatDigitsDot

/-- The `for (let i = index + 1; ...)` scan: the first later-indexed
transaction of the same user that is a reward candidate *and* whose
description matches the regex ends the scan (`break`), yielding its
captured token; candidates whose regex does not match are skipped. -/
def findPrevRewardToken (uid : Nat) : List Transaction → Option (List Char)
  | [] => none
  | p :: rest =>
      if (p.user_id == uid) && isRewardCandidate p then
        match tokenOf p with
        | some tok => some tok
        | none => findPrevRewardToken uid rest
      else findPrevRewardToken uid rest

/-- JavaScript `Math.round`: round half towards positive infinity. -/
def jsRound (q : ℚ) : ℤ := ⌊q + 1 / 2⌋

/-- `Math.round(x * 100) / 100`: round to 2 decimal places. -/
def round2 (q : ℚ) : ℚ := (jsRound (q * 100) : ℚ) / 100

/-- The `displayAmount` computed by the transactions-table render
(src/unnamed/part_001 lines 2258-2308, identical copy at lines
2694-2745) for transaction `t`, where `later` is the tail of the
transaction array after `t`'s index (the entries the
`for (let i = index + 1; ...)` loop scans). `none` models a `NaN`
display (a reward figure that `parseFloat` cannot read); when
`currentTotalReward` is 0 or `NaN`, `displayAmount` keeps its initial
value 0. -/
def displayAmountOf (t : Transaction) (later : List Transaction) : Option ℚ :=
  if isRewardCandidate t then
    match (match tokenOf t with
           | none => some 0
           | some tok => parseFloatDigitsDot tok : Option ℚ) with
    | none => some 0
    | some c =>
      if 0 < c then
        (match findPrevRewardToken t.user_id later with
         | none => some (0 : ℚ)
         | some tok => parseFloatDigitsDot tok).map (fun p => round2 (c - p))
      else some 0
  else some (round2 t.amount)

/-- The `displayAmount` for the entry at position `i` of the
`transactions` array. -/
def displayAmount (ts : List Transaction) (i : Nat) : Option ℚ :=
  match ts[i]? with
  | none => some 0
  | some t => displayAmountOf t (ts.drop (i + 1))

/-- The predicate the scan looks for: same user, reward candidate, and
a description whose regex match succeeds. -/
def isPriorRewardHit (uid : Nat) (q : Transaction) : Bool :=
  (q.user_id == uid) && isRewardCandidate q && (tokenOf q).isSome

/-- Spec-side description of the scan target: the nearest earlier (in a
list sorted descending by recency: later-indexed) same-user reward
transaction carrying a reward figure. -/
def nearestPriorReward (uid : Nat) (later : List Transaction) : Option Transaction :=
  later.find? (isPriorRewardHit uid)

/-- Concrete reward transactions used by witness and counterexample
theorems. -/
def wt0 : Transaction := ⟨1, 1, 8, "ADDED", some "Weekly Sale Reward: 7", 10⟩

/-- The earlier reward transaction of the same user as `wt0`. -/
def wt1 : Transaction := ⟨2, 1, 3, "ADDED", some "Weekly Sale Reward: 2", 5⟩

/-- A reward transaction with a fractional cumulative figure and no
prior reward transaction. -/
def ctx0 : Transaction := ⟨9, 1, 6, "ADDED", some "Weekly Sale Reward: 5.5", 10⟩

/-- A reward transaction of another user with no prior reward
transaction. -/
def wt4 : Transaction := ⟨4, 2, 3, "ADDED", some "Weekly Sale Reward: 3", 8⟩

/-- The list is sorted descending by recency. -/
def sortedByRecencyDesc (ts : List Transaction) : Prop :=
  List.Pairwise (fun a b => b.created_at ≤ a.created_at) ts

/-! ## Order status handling -/

/-- The `status` argument of `handleOrderStatus`. -/
inductive OrderStatusArg where
  | COMPLETED : OrderStatusArg
  | REJECTED : OrderStatusArg
deriving DecidableEq, Repr

/-- Observable outcome of one `handleOrderStatus` invocation:
whether the `confirm` dialog was shown, and the
`PATCH /orders/{orderId}/status` request issued, if any. -/
structure OrderStatusResult where
  confirmShown : Bool
  request : Option (Nat × OrderStatusArg)
deriving DecidableEq, Repr

/-- `handleOrderStatus` (src/unnamed/part_001 lines 311-335): the
`confirm(...)` dialog is consulted exactly when `status === "REJECTED"`
(the `&&` short-circuits otherwise); a declined confirmation returns
before any request; otherwise the PATCH is dispatched. `confirmAnswer`
models the user's response if the dialog is shown. -/
def handleOrderStatus (orderId : Nat) (status : OrderStatusArg)
    (confirmAnswer : Bool) : OrderStatusResult :=
  match status with
  | OrderStatusArg.REJECTED =>
      if confirmAnswer then ⟨true, some (orderId, OrderStatusArg.REJECTED)⟩
      else ⟨true, none⟩
  | OrderStatusArg.COMPLETED => ⟨false, some (orderId, OrderStatusArg.COMPLETED)⟩

/-! ## Login role gate -/

/-- Observable outcome of `handleSubmit` on a successful
`POST /auth/login` response (src/app/login/page.tsx lines 25-46). -/
structure LoginResult where
  tokenStored : Option String
  navigatedTo : Option String
  errorMsg : Option String
deriving DecidableEq, Repr

/-- The client-side role gate: `if (user.role !== 'ADMIN') { setError;
return; } setToken(token); router.push('/dashboard');`. -/
def handleLoginResponse (token : String) (role : String) : LoginResult :=
  if role ≠ "ADMIN" then ⟨none, none, some "Admin access required"⟩
  else ⟨some token, some "/dashboard", none⟩

/-! ## Dashboard order lists -/

/-- An order record as consumed by the dashboard filters (the fields the
filters read). Nullable display fields are `Option`s. -/
structure Order where
  id : Nat
  order_number : String
  user_id : Nat
  parent_user_name : Option String
  parent_user_id_number : Option String
  parent_user_email : Option String
  client_imo_id : Option String
  status : String
deriving DecidableEq, Repr

/-- `getOrderStatus` (src/unnamed/part_001 lines 118-119):
`(order.status || "").toUpperCase().trim()`. -/
def getOrderStatus (o : Order) : String := jsTrim (toUpperStr o.status)

/-- The search-match part of the dashboard order filters; `query` is the
already-lowercased search string. A `null` or empty field is falsy and
contributes `false`. -/
def orderMatchesQuery (o : Order) (query : String) : Bool :=
  strIncludes (toLowerStr o.order_number) query ||
  (match o.parent_user_name with
   | some s => (decide (s ≠ "")) && strIncludes (toLowerStr s) query
   | none => false) ||
  (match o.parent_user_id_number with
   | some s => (decide (s ≠ "")) && strIncludes (toLowerStr s) query
   | none => false) ||
  (match o.parent_user_email with
   | some s => (decide (s ≠ "")) && strIncludes (toLowerStr s) query
   | none => false) ||
  (match o.client_imo_id with
   | some s => (decide (s ≠ "")) && strIncludes (toLowerStr s) query
   | none => false)

/-- `filteredOrders` (src/unnamed/part_001 lines 359-372): keep only
orders whose normalized status is `PENDING` and that match the search
query. -/
def filteredOrders (pendingOrders : List Order) (searchQuery : String) : List Order :=
  pendingOrders.filter (fun o =>
    (getOrderStatus o == "PENDING") && orderMatchesQuery o (toLowerStr searchQuery))

/-- `filteredRejectedOrders` (src/unnamed/part_001 lines 374-387): keep
only orders whose normalized status is `REJECTED` and that match the
search query. -/
def filteredRejectedOrders (rejectedOrders : List Order) (searchQuery : String) : List Order :=
  rejectedOrders.filter (fun o =>
    (getOrderStatus o == "REJECTED") && orderMatchesQuery o (toLowerStr searchQuery))

/-- The fetch-time filter of `fetchData` (src/unnamed/part_001 lines
224-228): only orders whose normalized status is `REJECTED` enter the
`rejectedOrders` state. -/
def rejectedOnly (orders : List Order) : List Order :=
  orders.filter (fun o => getOrderStatus o == "REJECTED")

/-! ## Helper lemmas -/

theorem mem_dropWhile_of_mem {p : Char → Bool} {c : Char} (hc : p c = false) :
    ∀ {cs : List Char}, c ∈ cs → c ∈ cs.dropWhile p
  | [], h => absurd h (List.not_mem_nil c)
  | a :: tl, h => by
    rw [List.dropWhile_cons]
    by_cases hpa : p a = true
    · rw [if_pos hpa]
      rcases List.mem_cons.mp h with h1 | h1
      · rw [h1] at hc
        rw [hc] at hpa
        simp at hpa
      · exact mem_dropWhile_of_mem hc h1
    · rw [if_neg hpa]
      exact h

theorem mem_trimChars {c : Char} (hc : isJsSpace c = false) {cs : List Char}
    (h : c ∈ cs) : c ∈ trimChars cs := by
  unfold trimChars
  rw [List.mem_reverse]
  exact mem_dropWhile_of_mem hc (List.mem_reverse.mpr (mem_dropWhile_of_mem hc h))

theorem dropWhile_eq_self_of_all {p : Char → Bool} {cs : List Char}
    (h : ∀ c ∈ cs, p c = false) : cs.dropWhile p = cs := by
  cases cs with
  | nil => rfl
  | cons a tl =>
    have ha : ¬(p a = true) := by simp [h a (List.mem_cons_self a tl)]
    rw [List.dropWhile_cons, if_neg ha]

theorem takeWhile_eq_self_of_all {p : Char → Bool} :
    ∀ {cs : List Char}, (∀ c ∈ cs, p c = true) → cs.takeWhile p = cs
  | [], _ => rfl
  | a :: tl, h => by
    rw [List.takeWhile_cons, if_pos (h a (List.mem_cons_self a tl)),
      takeWhile_eq_self_of_all (fun c hc => h c (List.mem_cons_of_mem a hc))]

theorem trimChars_eq_self {cs : List Char} (h : ∀ c ∈ cs, isJsSpace c = false) :
    trimChars cs = cs := by
  unfold trimChars
  rw [dropWhile_eq_self_of_all h,
    dropWhile_eq_self_of_all (fun c hc => h c (List.mem_reverse.mp hc)),
    List.reverse_reverse]

theorem isJsSpace_eq_false_of_isDigit {c : Char} (h : c.isDigit = true) :
    isJsSpace c = false := by
  rcases Bool.eq_false_or_eq_true (isJsSpace c) with ht | hf
  · exfalso
    unfold isJsSpace at ht
    simp only [Bool.or_eq_true, decide_eq_true_eq] at ht
    rcases ht with (((((h1 | h1) | h1) | h1) | h1) | h1) <;>
      subst h1 <;> exact absurd h (by decide)
  · exact hf

theorem jsTrim_eq_self {s : String} (h : ∀ c ∈ s.data, isJsSpace c = false) :
    jsTrim s = s := by
  unfold jsTrim
  rw [trimChars_eq_self h]

theorem string_ne_empty_of_data_ne_nil {s : String} (h : s.data ≠ []) :
    s ≠ "" := by
  intro he
  apply h
  rw [he]

theorem containsChar_iff {s : String} {c : Char} :
    containsChar s c = true ↔ c ∈ s.data := by
  unfold containsChar
  exact List.elem_iff

theorem containsChar_eq_false {s : String} {c : Char} (h : c ∉ s.data) :
    containsChar s c = false := by
  rcases Bool.eq_false_or_eq_true (containsChar s c) with ht | hf
  · exact absurd (containsChar_iff.mp ht) h
  · exact hf

theorem parseDigits_all {cs : List Char} (hne : cs ≠ [])
    (hdig : ∀ c ∈ cs, c.isDigit = true) :
    parseDigits cs = some (digitsToNat cs) := by
  obtain ⟨a, tl, rfl⟩ := List.exists_cons_of_ne_nil hne
  unfold parseDigits
  rw [takeWhile_eq_self_of_all hdig]
  rfl

theorem jsParseIntNoSign_all_digits {cs : List Char} (hne : cs ≠ [])
    (hdig : ∀ c ∈ cs, c.isDigit = true) :
    jsParseIntNoSign cs = some (digitsToNat cs) := by
  obtain ⟨a, tl, rfl⟩ := List.exists_cons_of_ne_nil hne
  cases tl with
  | nil =>
    show parseDigits [a] = some (digitsToNat [a])
    exact parseDigits_all (by simp) hdig
  | cons c1 rest =>
    have hdc1 : c1.isDigit = true := hdig c1 (by simp)
    have hcond : ¬(a = '0' ∧ (c1 = 'x' ∨ c1 = 'X')) := by
      rintro ⟨-, hx | hx⟩ <;> rw [hx] at hdc1 <;> exact absurd hdc1 (by decide)
    show (if a = '0' ∧ (c1 = 'x' ∨ c1 = 'X') then parseHexDigits rest
          else parseDigits (a :: c1 :: rest)) = some (digitsToNat (a :: c1 :: rest))
    rw [if_neg hcond]
    exact parseDigits_all (by simp) hdig

theorem jsParseInt_all_digits {cs : List Char} (hne : cs ≠ [])
    (hdig : ∀ c ∈ cs, c.isDigit = true) :
    jsParseInt ⟨cs⟩ = some ((digitsToNat cs : Nat) : Int) := by
  obtain ⟨a, tl, rfl⟩ := List.exists_cons_of_ne_nil hne
  have hspace : ∀ c ∈ a :: tl, isJsSpace c = false :=
    fun c hc => isJsSpace_eq_false_of_isDigit (hdig c hc)
  have ha := hdig a (List.mem_cons_self a tl)
  have hm : ¬(a = '-') := by
    intro he
    rw [he] at ha
    exact absurd ha (by decide)
  have hp : ¬(a = '+') := by
    intro he
    rw [he] at ha
    exact absurd ha (by decide)
  unfold jsParseInt
  rw [show (String.mk (a :: tl)).data = a :: tl from rfl,
    dropWhile_eq_self_of_all hspace]
  simp only [jsParseIntCore, if_neg hm, if_neg hp]
  rw [jsParseIntNoSign_all_digits (by simp) hdig]
  rfl

theorem userIdTest_all_digits {q : String} (hne : q.data ≠ [])
    (hdig : ∀ c ∈ q.data, c.isDigit = true) (hlen : q.length ≤ 3)
    (hpos : 0 < digitsToNat q.data) (hlt : digitsToNat q.data < 10000) :
    userIdTest q = some ((digitsToNat q.data : Nat) : Int) := by
  have hparse : jsParseInt q = some ((digitsToNat q.data : Nat) : Int) := by
    have h := jsParseInt_all_digits hne hdig
    rwa [show (⟨q.data⟩ : String) = q from rfl] at h
  have hcond : q.length ≤ 3 ∧ 0 < ((digitsToNat q.data : Nat) : Int) ∧
      ((digitsToNat q.data : Nat) : Int) < 10000 :=
    ⟨hlen, by exact_mod_cast hpos, by exact_mod_cast hlt⟩
  unfold userIdTest
  rw [hparse]
  dsimp only
  rw [if_pos hcond]

/-! ## C1: email classification on the transactions pages -/

/-- Claim C1, counterexample: the first `TransactionsPage` variant
(src/unnamed/part_001 lines 2000-2029) has no email branch, so the
search input `"a@b.com"`, although it contains `@`, does not set the
`email` filter parameter there: it sets `idNumber`. -/
theorem c1_counterexample :
    containsChar "a@b.com" '@' = true ∧
    classifySearchNoEmail "a@b.com" = SearchFilter.idNumber "a@b.com" ∧
    classifySearchNoEmail "a@b.com" ≠ SearchFilter.email "a@b.com" := by
  refine ⟨rfl, rfl, ?_⟩
  decide

/-- Claim C1 as amended: on the `TransactionsPage` variant whose
classifier checks for `@` (src/unnamed/part_001 lines 2432-2465), every
search input containing `@` makes the fetch of `/users/transactions/all`
set the `email` filter parameter (to the trimmed query) and neither the
`userId` nor the `idNumber` parameter. -/
theorem c1_email_filter (q : String) (h : containsChar q '@' = true) :
    classifySearch q = SearchFilter.email (jsTrim q) := by
  have hmem : '@' ∈ q.data := containsChar_iff.mp h
  have hmemt : '@' ∈ (jsTrim q).data := mem_trimChars (by decide) hmem
  have hne : jsTrim q ≠ "" :=
    string_ne_empty_of_data_ne_nil (by
      intro hnil
      rw [hnil] at hmemt
      exact List.not_mem_nil '@' hmemt)
  have hat : containsChar (jsTrim q) '@' = true := containsChar_iff.mpr hmemt
  unfold classifySearch
  rw [if_neg hne, if_pos hat]

/-- Witness for `c1_email_filter` at the concrete input `"a@b.com"`. -/
theorem c1_email_filter_witness :
    classifySearch "a@b.com" = SearchFilter.email (jsTrim "a@b.com") :=
  c1_email_filter "a@b.com" (by decide)

/-! ## C5: short numeric strings set the userId parameter -/

/-- Claim C5: every numeric (all-digits) search string of length at most
3 whose value lies strictly between 0 and 10000 makes the transactions
fetch set the `userId` filter parameter (in both `TransactionsPage`
variants). -/
theorem c5_short_numeric_userId (q : String) (hne : q.data ≠ [])
    (hdig : ∀ c ∈ q.data, c.isDigit = true) (hlen : q.length ≤ 3)
    (hpos : 0 < digitsToNat q.data) (hlt : digitsToNat q.data < 10000) :
    classifySearch q = SearchFilter.userId ((digitsToNat q.data : Nat) : Int) ∧
    classifySearchNoEmail q = SearchFilter.userId ((digitsToNat q.data : Nat) : Int) := by
  have hspace : ∀ c ∈ q.data, isJsSpace c = false :=
    fun c hc => isJsSpace_eq_false_of_isDigit (hdig c hc)
  have htrim : jsTrim q = q := jsTrim_eq_self hspace
  have hq : q ≠ "" := string_ne_empty_of_data_ne_nil hne
  have hat : containsChar q '@' = false := by
    apply containsChar_eq_false
    intro hmem
    exact absurd (hdig '@' hmem) (by decide)
  have hutest := userIdTest_all_digits hne hdig hlen hpos hlt
  constructor
  · unfold classifySearch
    rw [htrim, if_neg hq, hat]
    simp only [Bool.false_eq_true, if_false, hutest]
  · unfold classifySearchNoEmail
    rw [htrim, if_neg hq, hutest]

/-- Witness for `c5_short_numeric_userId` at the concrete input `"45"`. -/
theorem c5_witness :
    classifySearch "45" = SearchFilter.userId ((digitsToNat "45".data : Nat) : Int) ∧
    classifySearchNoEmail "45" = SearchFilter.userId ((digitsToNat "45".data : Nat) : Int) :=
  c5_short_numeric_userId "45" (by decide) (by decide) (by decide)
    (by decide) (by decide)

/-! ## C6: the idNumber fallback -/

/-- Claim C6, counterexample: the input `"1a"` is non-empty, contains no
`@`, and is not a numeric string, yet both classifier variants set the
`userId` parameter (to `parseInt("1a") = 1`), not the `idNumber`
parameter. -/
theorem c6_counterexample :
    ("1a" : String) ≠ "" ∧
    containsChar "1a" '@' = false ∧
    isNumericString "1a" = false ∧
    classifySearch "1a" = SearchFilter.userId 1 ∧
    classifySearchNoEmail "1a" = SearchFilter.userId 1 := by
  refine ⟨?_, rfl, rfl, rfl, rfl⟩
  decide

/-- Claim C6 as amended: for every search input whose trimmed form is
non-empty, contains no `@`, and fails the `parseInt`-based userId test
(`parseInt` yields no value, or the string is longer than 3 characters,
or the parsed value is not strictly between 0 and 10000), both
transactions fetch variants set the `idNumber` filter parameter; in
particular the 13-digit input `"1234567890123"` is classified as
`idNumber`, not `userId`. (Inputs that `parseInt` reads a short positive
value from without being numerals — a digit prefix as in `"1a"`, or a
hexadecimal form as in `"0x5"` — are classified as `userId` instead.) -/
theorem c6_idNumber_fallback :
    (∀ q : String, jsTrim q ≠ "" → containsChar (jsTrim q) '@' = false →
      userIdTest (jsTrim q) = none →
      classifySearch q = SearchFilter.idNumber (jsTrim q) ∧
      classifySearchNoEmail q = SearchFilter.idNumber (jsTrim q)) ∧
    classifySearch "1234567890123" = SearchFilter.idNumber "1234567890123" ∧
    classifySearchNoEmail "1234567890123" = SearchFilter.idNumber "1234567890123" := by
  refine ⟨?_, rfl, rfl⟩
  intro q hne hat hnone
  constructor
  · unfold classifySearch
    rw [if_neg hne, hat]
    simp only [Bool.false_eq_true, if_false, hnone]
  · unfold classifySearchNoEmail
    rw [if_neg hne, hnone]

/-- Witness for `c6_idNumber_fallback` at the concrete input `"hello"`. -/
theorem c6_witness :
    classifySearch "hello" = SearchFilter.idNumber (jsTrim "hello") ∧
    classifySearchNoEmail "hello" = SearchFilter.idNumber (jsTrim "hello") :=
  c6_idNumber_fallback.1 "hello" (by decide) (by decide) (by decide)

/-! ## C2: add-points client-side validation -/

/-- Claim C2, counterexample: the input `"5x"` is not a numeric string,
yet `handleAddPoints` does not reject it client-side: `parseInt("5x")`
reads the digit prefix and yields 5, so the POST to `/users/{id}/points`
is issued with amount 5 — a network call on a non-numeric input. -/
theorem c2_counterexample :
    isNumericString "5x" = false ∧ addPointsRequest "5x" = some 5 :=
  ⟨rfl, rfl⟩

/-- Claim C2 as amended: the POST to `/users/{id}/points` is issued with
amount `n` exactly when `parseInt` reads a positive value `n` from the
input string; inputs with a `NaN` or non-positive parse are rejected
client-side (error toast, no network call), but non-numeric inputs that
`parseInt` reads a positive value from — a digit prefix followed by
garbage (`"5x"`), or a hexadecimal `0x` form (`"0x5"`) — are accepted
and posted with the parsed value. -/
theorem c2_addPoints_guard (s : String) (n : Int) :
    addPointsRequest s = some n ↔ (jsParseInt s = some n ∧ 0 < n) := by
  constructor
  · intro h
    unfold addPointsRequest at h
    by_cases hs : s = ""
    · rw [if_pos hs] at h
      exact absurd h (by simp)
    · rw [if_neg hs] at h
      cases hp : jsParseInt s with
      | none =>
        rw [hp] at h
        exact absurd h (by simp)
      | some m =>
        rw [hp] at h
        dsimp only at h
        by_cases hm : m ≤ 0
        · rw [if_pos hm] at h
          exact absurd h (by simp)
        · rw [if_neg hm] at h
          have hmn : m = n := by
            injection h
          subst hmn
          exact ⟨rfl, lt_of_not_le hm⟩
  · rintro ⟨hp, hpos⟩
    have hs : s ≠ "" := by
      intro he
      rw [he, show jsParseInt "" = none from rfl] at hp
      exact Option.noConfusion hp
    unfold addPointsRequest
    rw [if_neg hs, hp]
    dsimp only
    rw [if_neg (not_le.mpr hpos)]

/-- Witness for `c2_addPoints_guard` at the concrete input `"12"`. -/
theorem c2_witness : addPointsRequest "12" = some 12 :=
  (c2_addPoints_guard "12" 12).mpr ⟨by decide, by decide⟩

/-! ## C7, C9: order-status confirmation gating -/

/-- Claim C7: for a `REJECTED` status change, the PATCH to
`/orders/{id}/status` is issued only if the confirmation dialog (which
is always shown on this path) is accepted; when confirmation is
declined, the handler returns before the request, so no request is
issued and no state changes. -/
theorem c7_reject_requires_confirm (orderId : Nat) (ans : Bool) :
    ((handleOrderStatus orderId OrderStatusArg.REJECTED ans).request ≠ none →
      ans = true) ∧
    (handleOrderStatus orderId OrderStatusArg.REJECTED false).request = none ∧
    (handleOrderStatus orderId OrderStatusArg.REJECTED ans).confirmShown = true := by
  refine ⟨?_, rfl, ?_⟩
  · intro h
    cases ans
    · exact absurd rfl h
    · rfl
  · cases ans <;> rfl

/-- Witness for `c7_reject_requires_confirm` at order id 7. -/
theorem c7_witness :
    (handleOrderStatus 7 OrderStatusArg.REJECTED false).request = none ∧
    true = true :=
  ⟨(c7_reject_requires_confirm 7 false).2.1,
   (c7_reject_requires_confirm 7 true).1 (by decide)⟩

/-- Claim C9: a `COMPLETED` status change dispatches the PATCH
unconditionally and shows no confirmation dialog; the dialog is shown
exactly on the `REJECTED` path. -/
theorem c9_completed_unconditional (orderId : Nat) (status : OrderStatusArg)
    (ans : Bool) :
    handleOrderStatus orderId OrderStatusArg.COMPLETED ans =
      OrderStatusResult.mk false (some (orderId, OrderStatusArg.COMPLETED)) ∧
    ((handleOrderStatus orderId status ans).confirmShown = true ↔
      status = OrderStatusArg.REJECTED) := by
  constructor
  · rfl
  · cases status <;> cases ans <;> simp [handleOrderStatus]

/-- Witness for `c9_completed_unconditional` at order id 3. -/
theorem c9_witness :
    handleOrderStatus 3 OrderStatusArg.COMPLETED true =
      OrderStatusResult.mk false (some (3, OrderStatusArg.COMPLETED)) ∧
    (handleOrderStatus 3 OrderStatusArg.REJECTED true).confirmShown = true :=
  ⟨(c9_completed_unconditional 3 OrderStatusArg.REJECTED true).1,
   (c9_completed_unconditional 3 OrderStatusArg.REJECTED true).2.mpr rfl⟩

/-! ## C8: the login role gate -/

/-- Claim C8: the client completes login — stores the token and
navigates to the dashboard — if and only if the returned user's role is
`"ADMIN"`; for any other role an error is shown and no token is
stored. -/
theorem c8_admin_role_gate (token role : String) :
    (((handleLoginResponse token role).tokenStored = some token ∧
      (handleLoginResponse token role).navigatedTo = some "/dashboard") ↔
      role = "ADMIN") ∧
    (role ≠ "ADMIN" →
      (handleLoginResponse token role).tokenStored = none ∧
      (handleLoginResponse token role).errorMsg = some "Admin access required") := by
  by_cases h : role = "ADMIN" <;> simp [handleLoginResponse, h]

/-- Witness for `c8_admin_role_gate` at roles `"ADMIN"` and `"USER"`. -/
theorem c8_witness :
    (handleLoginResponse "tok" "ADMIN").tokenStored = some "tok" ∧
    (handleLoginResponse "tok" "USER").tokenStored = none :=
  ⟨((c8_admin_role_gate "tok" "ADMIN").1.mpr rfl).1,
   ((c8_admin_role_gate "tok" "USER").2 (by decide)).1⟩

/-! ## C10: rendered order lists keep their normalized status -/

/-- Claim C10: whatever the `/orders/pending` and `/orders/rejected`
endpoints return and whatever the search query is, every order in the
rendered pending list has a normalized (uppercased, trimmed) status of
`"PENDING"`, every order in the rendered rejected list has a normalized
status of `"REJECTED"`, and the fetch-time filter already restores the
rejected invariant on every fetch. -/
theorem c10_rendered_status_invariant (pendingApi rejectedApi : List Order)
    (q : String) :
    (∀ o ∈ filteredOrders pendingApi q, getOrderStatus o = "PENDING") ∧
    (∀ o ∈ rejectedOnly rejectedApi, getOrderStatus o = "REJECTED") ∧
    (∀ o ∈ filteredRejectedOrders rejectedApi q, getOrderStatus o = "REJECTED") := by
  refine ⟨?_, ?_, ?_⟩ <;> intro o ho
  · have h := (List.mem_filter.mp ho).2
    simp only [Bool.and_eq_true, beq_iff_eq] at h
    exact h.1
  · have h := (List.mem_filter.mp ho).2
    simp only [beq_iff_eq] at h
    exact h
  · have h := (List.mem_filter.mp ho).2
    simp only [Bool.and_eq_true, beq_iff_eq] at h
    exact h.1

/-- Witness for `c10_rendered_status_invariant` on concrete one-order
lists whose raw statuses need normalizing. -/
theorem c10_witness :
    getOrderStatus ⟨1, "A1", 1, none, none, none, none, " pending "⟩ = "PENDING" ∧
    getOrderStatus ⟨2, "A2", 2, none, none, none, none, "rejected"⟩ = "REJECTED" :=
  ⟨(c10_rendered_status_invariant
      [⟨1, "A1", 1, none, none, none, none, " pending "⟩] [] "").1
      ⟨1, "A1", 1, none, none, none, none, " pending "⟩ (by decide),
   (c10_rendered_status_invariant []
      [⟨2, "A2", 2, none, none, none, none, "rejected"⟩] "").2.1
      ⟨2, "A2", 2, none, none, none, none, "rejected"⟩ (by decide)⟩

/-! ## C3, C4: the incremental-reward reconstruction -/

theorem figureOf_eq_some {t : Transaction} {c : ℚ} (h : figureOf t = some c) :
    ∃ tok, tokenOf t = some tok ∧ parseFloatDigitsDot tok = some c := by
  cases hfg : tokenOf t with
  | none =>
    unfold figureOf at h
    rw [hfg] at h
    exact Option.noConfusion h
  | some tok =>
    unfold figureOf at h
    rw [hfg] at h
    exact ⟨tok, rfl, h⟩

theorem findPrevRewardToken_eq (uid : Nat) :
    ∀ later : List Transaction,
      findPrevRewardToken uid later = (nearestPriorReward uid later).bind tokenOf
  | [] => rfl
  | p :: rest => by
    unfold nearestPriorReward
    by_cases h1 : ((p.user_id == uid) && isRewardCandidate p) = true
    · cases htok : tokenOf p with
      | some tok =>
        have hpred : isPriorRewardHit uid p = true := by
          unfold isPriorRewardHit
          rw [h1, htok]
          rfl
        rw [List.find?_cons_of_pos _ hpred]
        show findPrevRewardToken uid (p :: rest) = tokenOf p
        rw [htok]
        simp only [findPrevRewardToken]
        rw [if_pos h1, htok]
      | none =>
        have hpred : ¬(isPriorRewardHit uid p = true) := by
          unfold isPriorRewardHit
          rw [htok]
          simp
        rw [List.find?_cons_of_neg _ hpred]
        have hrec := findPrevRewardToken_eq uid rest
        unfold nearestPriorReward at hrec
        rw [← hrec]
        simp only [findPrevRewardToken]
        rw [if_pos h1, htok]
    · have hpred : ¬(isPriorRewardHit uid p = true) := by
        unfold isPriorRewardHit
        rcases Bool.eq_false_or_eq_true ((p.user_id == uid) && isRewardCandidate p)
          with ht | hf
        · exact absurd ht h1
        · rw [hf]
          simp
      rw [List.find?_cons_of_neg _ hpred]
      have hrec := findPrevRewardToken_eq uid rest
      unfold nearestPriorReward at hrec
      rw [← hrec]
      simp only [findPrevRewardToken]
      rw [if_neg h1]

theorem displayAmountOf_reward_eq (t : Transaction) (later : List Transaction)
    (hcand : isRewardCandidate t = true) (c : ℚ) (hfig : figureOf t = some c)
    (hpos : 0 < c)
    (hprevOk : ∀ p, nearestPriorReward t.user_id later = some p →
      (figureOf p).isSome = true) :
    displayAmountOf t later =
      some (round2 (c -
        (((nearestPriorReward t.user_id later).bind figureOf).getD 0))) := by
  obtain ⟨tok, htok, hparse⟩ := figureOf_eq_some hfig
  unfold displayAmountOf
  rw [if_pos hcand, htok]
  dsimp only
  rw [hparse]
  dsimp only
  rw [if_pos hpos, findPrevRewardToken_eq]
  cases hnp : nearestPriorReward t.user_id later with
  | none => rfl
  | some p =>
    obtain ⟨fp, hfp⟩ := Option.isSome_iff_exists.mp (hprevOk p hnp)
    obtain ⟨tokp, htokp, hparsep⟩ := figureOf_eq_some hfp
    show (match tokenOf p with
          | none => some (0 : ℚ)
          | some tok => parseFloatDigitsDot tok).map (fun q => round2 (c - q)) =
      some (round2 (c - (figureOf p).getD 0))
    rw [htokp, hfp]
    dsimp only
    rw [hparsep]
    rfl

/-- Claim C3: in a transaction list sorted descending by recency, a
reward transaction (ADDED, description embedding a positive cumulative
`Reward: N` figure) is displayed with its cumulative figure minus the
cumulative figure of the nearest earlier same-user reward transaction —
or minus 0, i.e. the full cumulative figure, when none exists — rounded
to 2 decimal places. -/
theorem c3_incremental_reward (ts : List Transaction) (i : Nat) (t : Transaction)
    (hsort : sortedByRecencyDesc ts) (ht : ts[i]? = some t)
    (hcand : isRewardCandidate t = true) (c : ℚ) (hfig : figureOf t = some c)
    (hpos : 0 < c)
    (hprevOk : ∀ p, nearestPriorReward t.user_id (ts.drop (i + 1)) = some p →
      (figureOf p).isSome = true) :
    displayAmount ts i =
      some (round2 (c -
        (((nearestPriorReward t.user_id (ts.drop (i + 1))).bind figureOf).getD 0))) := by
  unfold displayAmount
  rw [ht]
  exact displayAmountOf_reward_eq t (ts.drop (i + 1)) hcand c hfig hpos hprevOk

theorem round2_eq (q : ℚ) (n : ℤ) (h1 : (n : ℚ) ≤ q * 100 + 1 / 2)
    (h2 : q * 100 + 1 / 2 < (n : ℚ) + 1) : round2 q = (n : ℚ) / 100 := by
  unfold round2 jsRound
  rw [show (⌊q * 100 + 1 / 2⌋ : ℤ) = n from Int.floor_eq_iff.mpr ⟨h1, h2⟩]

/-- Witness for `c3_incremental_reward`: `wt0` (cumulative 7) preceded by
`wt1` (cumulative 2, same user) displays the increment 5. -/
theorem c3_witness : displayAmount [wt0, wt1] 0 = some 5 := by
  have h := c3_incremental_reward [wt0, wt1] 0 wt0
    (by unfold sortedByRecencyDesc; decide) rfl (by decide)
    ((7 : ℕ) : ℚ) rfl (by norm_num)
    (fun p hp => by
      have hq : nearestPriorReward wt0.user_id ([wt0, wt1].drop 1) = some wt1 := rfl
      rw [hq] at hp
      rw [← Option.some.inj hp]
      rfl)
  rw [h]
  have h3 : (((nearestPriorReward wt0.user_id ([wt0, wt1].drop 1)).bind
      figureOf).getD 0) = ((2 : ℕ) : ℚ) := rfl
  rw [h3]
  have h4 : round2 (((7 : ℕ) : ℚ) - ((2 : ℕ) : ℚ)) = ((500 : ℤ) : ℚ) / 100 :=
    round2_eq _ 500 (by norm_num) (by norm_num)
  rw [h4]
  norm_num

/-- Claim C4, counterexample: `ctx0` is a reward transaction (cumulative
figure 5.5) with no prior reward transaction in the fetched window, yet
the reconstruction displays 5.5 — the full cumulative figure — not 0. -/
theorem c4_counterexample :
    nearestPriorReward ctx0.user_id (List.drop 1 [ctx0]) = none ∧
    isRewardCandidate ctx0 = true ∧
    displayAmount [ctx0] 0 = some (11 / 2) ∧
    (11 / 2 : ℚ) ≠ 0 := by
  refine ⟨rfl, rfl, ?_, by norm_num⟩
  have h := displayAmountOf_reward_eq ctx0 [] rfl
    (((5 : ℕ) : ℚ) + ((5 : ℕ) : ℚ) / ((10 : ℚ) ^ (1 : ℕ))) rfl (by norm_num)
    (fun p hp => Option.noConfusion hp)
  have h2 : displayAmount [ctx0] 0 = displayAmountOf ctx0 [] := rfl
  rw [h2, h]
  have h3 : (((nearestPriorReward ctx0.user_id ([] : List Transaction)).bind
      figureOf).getD 0) = 0 := rfl
  rw [h3, sub_zero]
  have h4 : round2 (((5 : ℕ) : ℚ) + ((5 : ℕ) : ℚ) / ((10 : ℚ) ^ (1 : ℕ))) =
      ((550 : ℤ) : ℚ) / 100 :=
    round2_eq _ 550 (by norm_num) (by norm_num)
  rw [h4]
  norm_num

/-- Claim C4 as amended: when no prior same-user reward transaction is
found in the fetched window, `previousTotalReward` stays 0 and the
displayed amount is the transaction's full cumulative figure rounded to
2 decimals (not 0). -/
theorem c4_no_prior_full_figure (ts : List Transaction) (i : Nat)
    (t : Transaction) (ht : ts[i]? = some t)
    (hcand : isRewardCandidate t = true) (c : ℚ) (hfig : figureOf t = some c)
    (hpos : 0 < c)
    (hnone : nearestPriorReward t.user_id (ts.drop (i + 1)) = none) :
    displayAmount ts i = some (round2 c) := by
  have h := displayAmountOf_reward_eq t (ts.drop (i + 1)) hcand c hfig hpos
    (fun p hp => by
      rw [hnone] at hp
      exact Option.noConfusion hp)
  rw [hnone] at h
  simp only [Option.none_bind, Option.getD_none, sub_zero] at h
  unfold displayAmount
  rw [ht]
  exact h

/-- Witness for `c4_no_prior_full_figure`: `wt4` (cumulative 3, no prior
reward transaction) displays the full figure 3. -/
theorem c4_amended_witness : displayAmount [wt4] 0 = some 3 := by
  have h := c4_no_prior_full_figure [wt4] 0 wt4 rfl (by decide)
    ((3 : ℕ) : ℚ) rfl (by norm_num) rfl
  rw [h]
  have h4 : round2 ((3 : ℕ) : ℚ) = ((300 : ℤ) : ℚ) / 100 :=
    round2_eq _ 300 (by norm_num) (by norm_num)
  rw [h4]
  norm_num

end DiamondStore
